import Mathlib

/-!
Shallow embedding of `acme/environment_loop.py` (`EnvironmentLoop.run`).

The loop drives an Environment and an Actor through episodes, increments a
shared Counter after each episode, and writes a merged record to a Logger.
Python exceptions are modelled with an explicit error type, wall-clock time
as a stream of rational timestamps consumed call by call, Python dicts as
insertion-ordered association lists, and the two unbounded `while` loops
with explicit fuel (a `diverge` result marks fuel exhaustion, i.e. the
Python loop would still be running).  Every collaborator call that returns
is recorded in an event trace so that call counts and call order are
observable.
-/

namespace Acme

/-- Tag of a `dm_env` timestep: FIRST, MID or LAST. -/
inductive StepType where
  | first
  | mid
  | last
  deriving DecidableEq, Repr

/-- A `dm_env.TimeStep`: tag, optional reward, optional discount, observation. -/
structure TimeStep (Obs : Type) where
  step_type : StepType
  reward : Option ℚ
  discount : Option ℚ
  observation : Obs
  deriving DecidableEq, Repr

/-- `timestep.last()` in Python. -/
def TimeStep.isLast {Obs : Type} (ts : TimeStep Obs) : Bool :=
  ts.step_type = StepType.last

/-- Python errors that the embedded code can raise. -/
inductive RunErr where
  | invalidArgument
  | zeroDivision
  | typeError
  | collaborator (msg : String)
  deriving DecidableEq, Repr

/-- Lookup in an insertion-ordered association list (a Python dict). -/
def dictGet : List (String × ℚ) → String → Option ℚ
  | [], _ => none
  | kv :: rest, k => if kv.1 = k then some kv.2 else dictGet rest k

/-- `d[k] = v` on a Python dict: overwrite in place, else append. -/
def dictSet : List (String × ℚ) → String → ℚ → List (String × ℚ)
  | [], k, v => [(k, v)]
  | kv :: rest, k, v => if kv.1 = k then (k, v) :: rest else kv :: dictSet rest k v

/-- `d.update(other)` on Python dicts. -/
def dictUpdate (m other : List (String × ℚ)) : List (String × ℚ) :=
  other.foldl (fun acc kv => dictSet acc kv.1 kv.2) m

/-- Current value of a named counter, zero when absent. -/
def getCount (m : List (String × ℚ)) (k : String) : ℚ :=
  (dictGet m k).getD 0

/-- Modelled from the spec: `acme.utils.counting.Counter` is not under `src/`.
Per the spec it keeps named counters and `increment(**deltas)` adds each named
delta to the corresponding counter and returns the mapping of all current
totals.  The loop only ever calls it as `increment(episodes=1, steps=n)`, so
the model takes the two deltas positionally; the returned totals mapping is
the new counter state itself. -/
def counterIncrement (m : List (String × ℚ)) (episodesDelta stepsDelta : ℚ) :
    List (String × ℚ) :=
  let m1 := dictSet m "episodes" (getCount m "episodes" + episodesDelta)
  dictSet m1 "steps" (getCount m1 "steps" + stepsDelta)

/-- One observable collaborator interaction performed by the loop.  An event
is recorded when the corresponding call returns (a call that raises aborts
the run before its event is appended). -/
inductive Event (Obs Act : Type) where
  | reset (ts : TimeStep Obs)
  | observe_first (ts : TimeStep Obs)
  | select_action (o : Obs) (a : Act)
  | env_step (a : Act) (ts : TimeStep Obs)
  | observe (a : Act) (ts : TimeStep Obs)
  | update
  | counter_increment (episodes steps : ℚ) (totals : List (String × ℚ))
  | logger_write (record : List (String × ℚ))
  deriving DecidableEq, Repr

/-- A `dm_env.Environment`: deterministic state machine whose operations may
raise. -/
structure Env (Obs Act ES : Type) where
  reset : ES → Except RunErr (ES × TimeStep Obs)
  step : ES → Act → Except RunErr (ES × TimeStep Obs)

/-- An `acme.core.Actor`: deterministic state machine whose operations may
raise. -/
structure Actor (Obs Act AS : Type) where
  observe_first : AS → TimeStep Obs → Except RunErr AS
  select_action : AS → Obs → Except RunErr (AS × Act)
  observe : AS → Act → TimeStep Obs → Except RunErr AS
  update : AS → Except RunErr AS

/-- The mutable world the loop acts on: environment and actor internals, the
shared counter, the wall clock position, the event trace and the records the
Logger has received so far. -/
structure LoopState (Obs Act ES AS : Type) where
  envState : ES
  actorState : AS
  counter : List (String × ℚ)
  clockIdx : ℕ
  trace : List (Event Obs Act)
  logged : List (List (String × ℚ))
  deriving DecidableEq, Repr

/-- `episode_return += timestep.reward` in Python: adding `None` to a number
raises `TypeError`; a numeric reward is summed. -/
def addReward (ret : ℚ) (r : Option ℚ) : Except RunErr ℚ :=
  match r with
  | none => Except.error RunErr.typeError
  | some w => Except.ok (ret + w)

/-- Python division `a / b`: raises `ZeroDivisionError` when `b` is zero. -/
def pyDiv (a b : ℚ) : Except RunErr ℚ :=
  if b = 0 then Except.error RunErr.zeroDivision else Except.ok (a / b)

/-- Result of the inner per-episode `while` loop. -/
inductive StepRes (Obs Act ES AS : Type) where
  | done (es : ES) (ac : AS) (steps : ℕ) (ret : ℚ) (tr : List (Event Obs Act))
  | err (e : RunErr) (tr : List (Event Obs Act))
  | diverge
  deriving DecidableEq, Repr

/-- The inner `while not timestep.last():` loop of `EnvironmentLoop.run`:
select an action, step the environment, observe, update, then accumulate the
step count and the reward.  `fuel` bounds the number of iterations the model
is willing to execute; running out of fuel yields `diverge`. -/
def episodeLoop {Obs Act ES AS : Type} (env : Env Obs Act ES) (actor : Actor Obs Act AS) :
    ℕ → ES → AS → TimeStep Obs → ℕ → ℚ → List (Event Obs Act) → StepRes Obs Act ES AS
  | 0, es, ac, ts, steps, ret, tr =>
    if ts.step_type = StepType.last then StepRes.done es ac steps ret tr
    else StepRes.diverge
  | fuel' + 1, es, ac, ts, steps, ret, tr =>
    if ts.step_type = StepType.last then StepRes.done es ac steps ret tr
    else
        match actor.select_action ac ts.observation with
        | Except.error e => StepRes.err e tr
        | Except.ok (ac1, a) =>
          let tr1 := tr ++ [Event.select_action ts.observation a]
          match env.step es a with
          | Except.error e => StepRes.err e tr1
          | Except.ok (es1, ts1) =>
            let tr2 := tr1 ++ [Event.env_step a ts1]
            match actor.observe ac1 a ts1 with
            | Except.error e => StepRes.err e tr2
            | Except.ok ac2 =>
              let tr3 := tr2 ++ [Event.observe a ts1]
              match actor.update ac2 with
              | Except.error e => StepRes.err e tr3
              | Except.ok ac3 =>
                let tr4 := tr3 ++ [Event.update]
                match addReward ret ts1.reward with
                | Except.error e => StepRes.err e tr4
                | Except.ok ret1 =>
                  episodeLoop env actor fuel' es1 ac3 ts1 (steps + 1) ret1 tr4

/-- Result of running one full episode (reset through logging). -/
inductive EpisodeRes (Obs Act ES AS : Type) where
  | ok (steps : ℕ) (st : LoopState Obs Act ES AS)
  | err (e : RunErr) (tr : List (Event Obs Act)) (counter : List (String × ℚ))
      (logged : List (List (String × ℚ)))
  | diverge
  deriving DecidableEq, Repr

/-- One iteration of the outer loop of `EnvironmentLoop.run`: record the start
time, reset the environment, observe-first, run the episode, increment the
counter, compute `steps_per_second`, build and merge the result record and
hand it to the logger.  On an error the counter and logged lists reflect the
mutations made before the raise. -/
def runEpisode {Obs Act ES AS : Type} (env : Env Obs Act ES) (actor : Actor Obs Act AS)
    (times : ℕ → ℚ) (epFuel : ℕ) (st : LoopState Obs Act ES AS) :
    EpisodeRes Obs Act ES AS :=
  match env.reset st.envState with
  | Except.error e => EpisodeRes.err e st.trace st.counter st.logged
  | Except.ok (es1, ts0) =>
    let tr1 := st.trace ++ [Event.reset ts0]
    match actor.observe_first st.actorState ts0 with
    | Except.error e => EpisodeRes.err e tr1 st.counter st.logged
    | Except.ok ac1 =>
      let tr2 := tr1 ++ [Event.observe_first ts0]
      match episodeLoop env actor epFuel es1 ac1 ts0 0 0 tr2 with
      | StepRes.diverge => EpisodeRes.diverge
      | StepRes.err e tr => EpisodeRes.err e tr st.counter st.logged
      | StepRes.done es2 ac2 steps ret tr3 =>
        let totals := counterIncrement st.counter 1 (steps : ℚ)
        let tr4 := tr3 ++ [Event.counter_increment 1 (steps : ℚ) totals]
        match pyDiv (steps : ℚ) (times (st.clockIdx + 1) - times st.clockIdx) with
        | Except.error e => EpisodeRes.err e tr4 totals st.logged
        | Except.ok sps =>
          let result := dictUpdate
            [("episode_length", (steps : ℚ)), ("episode_return", ret),
             ("steps_per_second", sps)] totals
          EpisodeRes.ok steps
            { envState := es2, actorState := ac2, counter := totals,
              clockIdx := st.clockIdx + 2,
              trace := tr4 ++ [Event.logger_write result],
              logged := st.logged ++ [result] }

/-- The nested `should_terminate` predicate of `EnvironmentLoop.run`. -/
def should_terminate (num_episodes num_steps : Option ℕ)
    (episode_count step_count : ℕ) : Bool :=
  (match num_episodes with
   | some n => decide (n ≤ episode_count)
   | none => false) ||
  (match num_steps with
   | some n => decide (n ≤ step_count)
   | none => false)

/-- Result of a whole `run` call. -/
inductive RunOutcome (Obs Act ES AS : Type) where
  | ok (episode_count step_count : ℕ) (st : LoopState Obs Act ES AS)
  | err (e : RunErr) (tr : List (Event Obs Act)) (counter : List (String × ℚ))
      (logged : List (List (String × ℚ)))
  | diverge
  deriving DecidableEq, Repr

/-- The outer `while not should_terminate(...)` loop of `EnvironmentLoop.run`,
with fuel bounding the number of episodes the model is willing to execute. -/
def runLoop {Obs Act ES AS : Type} (env : Env Obs Act ES) (actor : Actor Obs Act AS)
    (times : ℕ → ℚ) (num_episodes num_steps : Option ℕ) (epFuel : ℕ) :
    ℕ → ℕ → ℕ → LoopState Obs Act ES AS → RunOutcome Obs Act ES AS
  | 0, episode_count, step_count, st =>
    if should_terminate num_episodes num_steps episode_count step_count then
      RunOutcome.ok episode_count step_count st
    else RunOutcome.diverge
  | oFuel' + 1, episode_count, step_count, st =>
    if should_terminate num_episodes num_steps episode_count step_count then
      RunOutcome.ok episode_count step_count st
    else
      match runEpisode env actor times epFuel st with
      | EpisodeRes.diverge => RunOutcome.diverge
      | EpisodeRes.err e tr cnt lg => RunOutcome.err e tr cnt lg
      | EpisodeRes.ok steps st1 =>
        runLoop env actor times num_episodes num_steps epFuel
          oFuel' (episode_count + 1) (step_count + steps) st1

/-- `EnvironmentLoop.run(num_episodes, num_steps)`: raise `ValueError` when
both bounds are given, otherwise run episodes until `should_terminate`. -/
def run {Obs Act ES AS : Type} (env : Env Obs Act ES) (actor : Actor Obs Act AS)
    (times : ℕ → ℚ) (num_episodes num_steps : Option ℕ) (epFuel oFuel : ℕ)
    (st : LoopState Obs Act ES AS) : RunOutcome Obs Act ES AS :=
  if num_episodes.isSome && num_steps.isSome then
    RunOutcome.err RunErr.invalidArgument st.trace st.counter st.logged
  else
    runLoop env actor times num_episodes num_steps epFuel oFuel 0 0 st

/-- The records the logger has received in a run outcome. -/
def runLogged {Obs Act ES AS : Type} : RunOutcome Obs Act ES AS →
    List (List (String × ℚ))
  | RunOutcome.ok _ _ st => st.logged
  | RunOutcome.err _ _ _ lg => lg
  | RunOutcome.diverge => []

/-! Concrete collaborators used to exercise the loop on explicit inputs. -/

/-- The identity wall clock: the n-th `time.time()` call returns `n` seconds,
so every episode measures a positive elapsed time. -/
def timesId : ℕ → ℚ := fun n => (n : ℚ)

/-- A FIRST timestep with observation 0 and no reward. -/
def tsFirst : TimeStep ℤ :=
  { step_type := StepType.first, reward := none, discount := none, observation := 0 }

/-- A LAST timestep carrying reward 1. -/
def tsLastOne : TimeStep ℤ :=
  { step_type := StepType.last, reward := some 1, discount := some 1, observation := 0 }

/-- A MID timestep whose reward is `None`. -/
def tsMidNone : TimeStep ℤ :=
  { step_type := StepType.mid, reward := none, discount := some 1, observation := 0 }

/-- A MID timestep carrying reward 2. -/
def tsMidTwo : TimeStep ℤ :=
  { step_type := StepType.mid, reward := some 2, discount := some 1, observation := 0 }

/-- A LAST timestep returned directly by `reset` (observation 0, no reward). -/
def tsLastFromReset : TimeStep ℤ :=
  { step_type := StepType.last, reward := none, discount := some 1, observation := 0 }

/-- Environment whose episodes end on the very first step with reward 1. -/
def envOneStep : Env ℤ ℤ Unit :=
  { reset := fun _ => Except.ok ((), tsFirst),
    step := fun _ _ => Except.ok ((), tsLastOne) }

/-- Environment whose `step` always yields a MID timestep with `None` reward. -/
def envNoneReward : Env ℤ ℤ Unit :=
  { reset := fun _ => Except.ok ((), tsFirst),
    step := fun _ _ => Except.ok ((), tsMidNone) }

/-- Environment whose episodes take exactly two steps (MID then LAST). -/
def envTwoStep : Env ℤ ℤ Bool :=
  { reset := fun _ => Except.ok (false, tsFirst),
    step := fun s _ =>
      if s then Except.ok (false, tsLastOne) else Except.ok (true, tsMidTwo) }

/-- Environment whose `reset` immediately returns a LAST timestep. -/
def envLastOnReset : Env ℤ ℤ Unit :=
  { reset := fun _ => Except.ok ((), tsLastFromReset),
    step := fun _ _ => Except.ok ((), tsLastOne) }

/-- A stateless actor that always selects action 0 and never fails. -/
def actorConst : Actor ℤ ℤ Unit :=
  { observe_first := fun ac _ => Except.ok ac,
    select_action := fun ac _ => Except.ok (ac, 0),
    observe := fun ac _ _ => Except.ok ac,
    update := fun ac => Except.ok ac }

/-- An actor whose `select_action` raises on its second call (its state counts
completed `select_action` calls). -/
def failActor : Actor ℤ ℤ ℕ :=
  { observe_first := fun ac _ => Except.ok ac,
    select_action := fun ac _ =>
      if ac = 1 then Except.error (RunErr.collaborator "fail")
      else Except.ok (ac + 1, 0),
    observe := fun ac _ _ => Except.ok ac,
    update := fun ac => Except.ok ac }

/-- A fresh loop state: unit collaborator states, empty counter, clock at 0,
nothing traced, nothing logged. -/
def st0 : LoopState ℤ ℤ Unit Unit :=
  { envState := (), actorState := (), counter := [], clockIdx := 0,
    trace := [], logged := [] }

/-- A fresh loop state for `envTwoStep`. -/
def st0Two : LoopState ℤ ℤ Bool ℕ :=
  { envState := false, actorState := 0, counter := [], clockIdx := 0,
    trace := [], logged := [] }

/-- A fresh loop state for `envOneStep` paired with `failActor`. -/
def st0Fail : LoopState ℤ ℤ Unit ℕ :=
  { envState := (), actorState := 0, counter := [], clockIdx := 0,
    trace := [], logged := [] }

/-- A loop state whose shared counter already holds a key that collides with
the computed field `episode_length`. -/
def stCollide : LoopState ℤ ℤ Unit Unit :=
  { envState := (), actorState := (), counter := [("episode_length", 99)],
    clockIdx := 0, trace := [], logged := [] }

/-- A second, independent loop state over the same environment and actor
internals as `st0` but with a different shared counter, wall-clock position
and logger history. -/
def stAlt : LoopState ℤ ℤ Unit Unit :=
  { envState := (), actorState := (), counter := [("episodes", 5), ("steps", 7)],
    clockIdx := 4, trace := [], logged := [[("unrelated", 3)]] }

/-- `run` terminates normally for some fuel budget. -/
def RunTerminates {Obs Act ES AS : Type} (env : Env Obs Act ES)
    (actor : Actor Obs Act AS) (times : ℕ → ℚ) (num_episodes num_steps : Option ℕ)
    (epFuel : ℕ) (st : LoopState Obs Act ES AS) : Prop :=
  ∃ oFuel episode_count step_count st',
    run env actor times num_episodes num_steps epFuel oFuel st =
      RunOutcome.ok episode_count step_count st'

/-- Apply a function to the trace component of an inner-loop result. -/
def StepRes.mapTr {Obs Act ES AS : Type}
    (f : List (Event Obs Act) → List (Event Obs Act)) :
    StepRes Obs Act ES AS → StepRes Obs Act ES AS
  | StepRes.done es ac steps ret tr => StepRes.done es ac steps ret (f tr)
  | StepRes.err e tr => StepRes.err e (f tr)
  | StepRes.diverge => StepRes.diverge

/-- `EpisodeBlocks o tr n r` says that `tr` consists of `n` consecutive blocks
`select_action, env_step, observe, update`, that each `select_action` uses the
observation of the current timestep (starting from `o`), that each block's
action is the one passed to `env_step` and `observe`, and that `r` is the sum
of the rewards of the timesteps returned by the `env_step` calls. -/
inductive EpisodeBlocks {Obs Act : Type} : Obs → List (Event Obs Act) → ℕ → ℚ → Prop where
  | nil (o : Obs) : EpisodeBlocks o [] 0 0
  | cons (o : Obs) (a : Act) (ts : TimeStep Obs) (w : ℚ) (tr : List (Event Obs Act))
      (n : ℕ) (r : ℚ) (hw : ts.reward = some w)
      (htail : EpisodeBlocks ts.observation tr n r) :
      EpisodeBlocks o
        (Event.select_action o a :: Event.env_step a ts :: Event.observe a ts ::
          Event.update :: tr) (n + 1) (w + r)

/-- The environment-step events of a trace, with their returned timesteps. -/
def envStepsOf {Obs Act : Type} (tr : List (Event Obs Act)) :
    List (Act × TimeStep Obs) :=
  tr.filterMap (fun ev => match ev with
    | Event.env_step a ts => some (a, ts)
    | _ => none)

/-- Number of `Environment.step` calls recorded in a trace. -/
def countEnvSteps {Obs Act : Type} (tr : List (Event Obs Act)) : ℕ :=
  (envStepsOf tr).length

/-- Sum of the rewards of the timesteps returned by the `Environment.step`
calls recorded in a trace (an absent reward counts as zero). -/
def sumEnvRewards {Obs Act : Type} (tr : List (Event Obs Act)) : ℚ :=
  ((envStepsOf tr).map (fun p => p.2.reward.getD 0)).sum

/-- The `Counter.increment` calls recorded in a trace, with their deltas and
returned totals. -/
def incrCalls {Obs Act : Type} (tr : List (Event Obs Act)) :
    List (ℚ × ℚ × List (String × ℚ)) :=
  tr.filterMap (fun ev => match ev with
    | Event.counter_increment e s t => some (e, s, t)
    | _ => none)


/-! Lemmas about the dict model. -/

theorem dictGet_dictSet_self (m : List (String × ℚ)) (k : String) (v : ℚ) :
    dictGet (dictSet m k v) k = some v := by
  induction m with
  | nil => simp [dictSet, dictGet]
  | cons kv rest ih =>
    by_cases h : kv.1 = k
    · simp [dictSet, h, dictGet]
    · simp [dictSet, h, dictGet, ih]

theorem dictGet_dictSet_ne (m : List (String × ℚ)) (k k2 : String) (v : ℚ)
    (h : k2 ≠ k) : dictGet (dictSet m k2 v) k = dictGet m k := by
  induction m with
  | nil => simp [dictSet, dictGet, h]
  | cons kv rest ih =>
    by_cases h2 : kv.1 = k2
    · simp [dictSet, h2, dictGet, h]
    · simp [dictSet, h2, dictGet, ih]

theorem dictGet_eq_none_of_not_mem (m : List (String × ℚ)) (k : String)
    (h : k ∉ m.map Prod.fst) : dictGet m k = none := by
  induction m with
  | nil => simp [dictGet]
  | cons kv rest ih =>
    simp only [List.map_cons, List.mem_cons] at h
    push_neg at h
    have hne : ¬ kv.1 = k := fun hh => h.1 hh.symm
    simp [dictGet, hne, ih h.2]

theorem dictUpdate_cons (m : List (String × ℚ)) (kv : String × ℚ)
    (rest : List (String × ℚ)) :
    dictUpdate m (kv :: rest) = dictUpdate (dictSet m kv.1 kv.2) rest := rfl

theorem dictGet_dictUpdate_none (m other : List (String × ℚ)) (k : String)
    (h : dictGet other k = none) : dictGet (dictUpdate m other) k = dictGet m k := by
  induction other generalizing m with
  | nil => simp [dictUpdate]
  | cons kv rest ih =>
    by_cases hk : kv.1 = k
    · simp [dictGet, hk] at h
    · rw [dictUpdate_cons, ih (dictSet m kv.1 kv.2) (by simpa [dictGet, hk] using h),
        dictGet_dictSet_ne m k kv.1 kv.2 hk]

theorem dictGet_dictUpdate_some (m other : List (String × ℚ)) (k : String) (v : ℚ)
    (hnd : (other.map Prod.fst).Nodup) (h : dictGet other k = some v) :
    dictGet (dictUpdate m other) k = some v := by
  induction other generalizing m with
  | nil => simp [dictGet] at h
  | cons kv rest ih =>
    rw [List.map_cons, List.nodup_cons] at hnd
    by_cases hk : kv.1 = k
    · have hv : v = kv.2 := by
        simp [dictGet, hk] at h
        exact h.symm
      have hrest : dictGet rest k = none := by
        refine dictGet_eq_none_of_not_mem rest k ?_
        rw [← hk]; exact hnd.1
      rw [dictUpdate_cons, dictGet_dictUpdate_none (dictSet m kv.1 kv.2) rest k hrest,
        hk, dictGet_dictSet_self, hv]
    · rw [dictUpdate_cons]
      exact ih (dictSet m kv.1 kv.2) hnd.2 (by simpa [dictGet, hk] using h)

theorem getCount_counterIncrement_episodes (m : List (String × ℚ)) (e s : ℚ) :
    getCount (counterIncrement m e s) "episodes" = getCount m "episodes" + e := by
  simp only [counterIncrement, getCount]
  rw [dictGet_dictSet_ne _ _ _ _ (by decide), dictGet_dictSet_self]
  rfl

theorem getCount_counterIncrement_steps (m : List (String × ℚ)) (e s : ℚ) :
    getCount (counterIncrement m e s) "steps" = getCount m "steps" + s := by
  simp only [counterIncrement, getCount]
  rw [dictGet_dictSet_self, dictGet_dictSet_ne _ _ _ _ (by decide)]
  rfl

/-! Trace-shift lemma for the inner loop: the starting trace is only ever
appended to, and the appended part does not depend on it. -/

theorem episodeLoop_mapTr {Obs Act ES AS : Type} (env : Env Obs Act ES)
    (actor : Actor Obs Act AS) :
    ∀ (fuel : ℕ) (es : ES) (ac : AS) (ts : TimeStep Obs) (steps : ℕ) (ret : ℚ)
      (tr : List (Event Obs Act)),
    episodeLoop env actor fuel es ac ts steps ret tr =
      StepRes.mapTr (fun l => tr ++ l) (episodeLoop env actor fuel es ac ts steps ret []) := by
  intro fuel
  induction fuel with
  | zero =>
    intro es ac ts steps ret tr
    by_cases h : ts.step_type = StepType.last <;> simp [episodeLoop, h, StepRes.mapTr]
  | succ fuel ih =>
    intro es ac ts steps ret tr
    by_cases h : ts.step_type = StepType.last
    · simp [episodeLoop, h, StepRes.mapTr]
    · simp only [episodeLoop, h, if_false]
      cases hsel : actor.select_action ac ts.observation with
      | error e => simp [hsel, StepRes.mapTr]
      | ok p =>
        obtain ⟨ac1, a⟩ := p
        cases hstep : env.step es a with
        | error e => simp [hsel, hstep, StepRes.mapTr]
        | ok q =>
          obtain ⟨es1, ts1⟩ := q
          cases hobs : actor.observe ac1 a ts1 with
          | error e => simp [hsel, hstep, hobs, StepRes.mapTr]
          | ok ac2 =>
            cases hupd : actor.update ac2 with
            | error e => simp [hsel, hstep, hobs, hupd, StepRes.mapTr]
            | ok ac3 =>
              cases hrew : addReward ret ts1.reward with
              | error e => simp [hsel, hstep, hobs, hupd, hrew, StepRes.mapTr]
              | ok ret1 =>
                simp only [hsel, hstep, hobs, hupd, hrew]
                rw [ih es1 ac3 ts1 (steps + 1) ret1
                    (tr ++ [Event.select_action ts.observation a] ++ [Event.env_step a ts1] ++
                      [Event.observe a ts1] ++ [Event.update]),
                  ih es1 ac3 ts1 (steps + 1) ret1
                    ([] ++ [Event.select_action ts.observation a] ++ [Event.env_step a ts1] ++
                      [Event.observe a ts1] ++ [Event.update])]
                cases episodeLoop env actor fuel es1 ac3 ts1 (steps + 1) ret1 [] <;>
                  simp [StepRes.mapTr]

/-! The shape of the inner-loop trace: a sequence of
select-action / env-step / observe / update blocks. -/

theorem EpisodeBlocks.counts {Obs Act : Type} {o : Obs} {tr : List (Event Obs Act)}
    {n : ℕ} {r : ℚ} (h : EpisodeBlocks o tr n r) :
    countEnvSteps tr = n ∧ sumEnvRewards tr = r ∧ incrCalls tr = [] := by
  induction h with
  | nil o => simp [countEnvSteps, sumEnvRewards, envStepsOf, incrCalls]
  | cons o a ts w tr n r hw htail ih =>
    obtain ⟨ih1, ih2, ih3⟩ := ih
    refine ⟨?_, ?_, ?_⟩
    · simp [countEnvSteps, envStepsOf, List.filterMap_cons] at ih1 ⊢
      omega
    · simp [sumEnvRewards, envStepsOf, List.filterMap_cons, hw] at ih2 ⊢
      rw [ih2]
    · simpa [incrCalls, List.filterMap_cons] using ih3

theorem episodeLoop_blocks {Obs Act ES AS : Type} (env : Env Obs Act ES)
    (actor : Actor Obs Act AS) :
    ∀ (fuel : ℕ) (es : ES) (ac : AS) (ts : TimeStep Obs) (steps : ℕ) (ret : ℚ)
      (es2 : ES) (ac2 : AS) (steps2 : ℕ) (ret2 : ℚ) (tr2 : List (Event Obs Act)),
    episodeLoop env actor fuel es ac ts steps ret [] =
      StepRes.done es2 ac2 steps2 ret2 tr2 →
    ∃ n r, steps2 = steps + n ∧ ret2 = ret + r ∧ EpisodeBlocks ts.observation tr2 n r := by
  intro fuel
  induction fuel with
  | zero =>
    intro es ac ts steps ret es2 ac2 steps2 ret2 tr2 hdone
    by_cases h : ts.step_type = StepType.last
    · simp only [episodeLoop, h, if_true, StepRes.done.injEq] at hdone
      obtain ⟨h1, h2, h3, h4, h5⟩ := hdone
      exact ⟨0, 0, by omega, by rw [← h4, add_zero],
        by rw [← h5]; exact EpisodeBlocks.nil _⟩
    · simp [episodeLoop, h] at hdone
  | succ fuel ih =>
    intro es ac ts steps ret es2 ac2 steps2 ret2 tr2 hdone
    by_cases h : ts.step_type = StepType.last
    · simp only [episodeLoop, h, if_true, StepRes.done.injEq] at hdone
      obtain ⟨h1, h2, h3, h4, h5⟩ := hdone
      exact ⟨0, 0, by omega, by rw [← h4, add_zero],
        by rw [← h5]; exact EpisodeBlocks.nil _⟩
    · simp only [episodeLoop, h, if_false] at hdone
      cases hsel : actor.select_action ac ts.observation with
      | error e => simp [hsel] at hdone
      | ok p =>
        obtain ⟨ac1, a⟩ := p
        cases hstep : env.step es a with
        | error e => simp [hsel, hstep] at hdone
        | ok q =>
          obtain ⟨es1, ts1⟩ := q
          cases hobs : actor.observe ac1 a ts1 with
          | error e => simp [hsel, hstep, hobs] at hdone
          | ok acx =>
            cases hupd : actor.update acx with
            | error e => simp [hsel, hstep, hobs, hupd] at hdone
            | ok ac3 =>
              cases hrew0 : ts1.reward with
              | none => simp [hsel, hstep, hobs, hupd, addReward, hrew0] at hdone
              | some w =>
                simp only [hsel, hstep, hobs, hupd, addReward, hrew0] at hdone
                rw [episodeLoop_mapTr] at hdone
                cases hE : episodeLoop env actor fuel es1 ac3 ts1 (steps + 1) (ret + w) [] with
                | diverge => rw [hE] at hdone; simp [StepRes.mapTr] at hdone
                | err e tr => rw [hE] at hdone; simp [StepRes.mapTr] at hdone
                | done esd acd stepsd retd trd =>
                  rw [hE] at hdone
                  simp only [StepRes.mapTr, StepRes.done.injEq] at hdone
                  obtain ⟨he1, he2, he3, he4, he5⟩ := hdone
                  obtain ⟨nx, rx, hn, hr, hb⟩ :=
                    ih es1 ac3 ts1 (steps + 1) (ret + w) esd acd stepsd retd trd hE
                  refine ⟨nx + 1, w + rx, by omega, by rw [← he4, hr]; ring, ?_⟩
                  rw [← he5]
                  have hform : ([] ++ [Event.select_action ts.observation a] ++
                      [Event.env_step a ts1] ++ [Event.observe a ts1] ++
                      [Event.update]) ++ trd =
                      Event.select_action ts.observation a :: Event.env_step a ts1 ::
                        Event.observe a ts1 :: Event.update :: trd := by simp
                  rw [hform]
                  exact EpisodeBlocks.cons ts.observation a ts1 w trd nx rx hrew0 hb

/-! Introduction and elimination forms for one successful episode. -/

theorem runEpisode_ok_intro {Obs Act ES AS : Type} (env : Env Obs Act ES)
    (actor : Actor Obs Act AS) (times : ℕ → ℚ) (epFuel : ℕ)
    (st : LoopState Obs Act ES AS) (es1 : ES) (ts0 : TimeStep Obs) (ac1 : AS)
    (es2 : ES) (ac2 : AS) (n : ℕ) (ret : ℚ) (inner : List (Event Obs Act)) (sps : ℚ)
    (hr : env.reset st.envState = Except.ok (es1, ts0))
    (ho : actor.observe_first st.actorState ts0 = Except.ok ac1)
    (hE : episodeLoop env actor epFuel es1 ac1 ts0 0 0 [] =
      StepRes.done es2 ac2 n ret inner)
    (hd : pyDiv (n : ℚ) (times (st.clockIdx + 1) - times st.clockIdx) = Except.ok sps) :
    runEpisode env actor times epFuel st = EpisodeRes.ok n
      { envState := es2, actorState := ac2,
        counter := counterIncrement st.counter 1 (n : ℚ),
        clockIdx := st.clockIdx + 2,
        trace := st.trace ++ [Event.reset ts0, Event.observe_first ts0] ++ inner ++
          [Event.counter_increment 1 (n : ℚ) (counterIncrement st.counter 1 (n : ℚ)),
           Event.logger_write (dictUpdate
             [("episode_length", (n : ℚ)), ("episode_return", ret),
              ("steps_per_second", sps)] (counterIncrement st.counter 1 (n : ℚ)))],
        logged := st.logged ++ [dictUpdate
          [("episode_length", (n : ℚ)), ("episode_return", ret),
           ("steps_per_second", sps)] (counterIncrement st.counter 1 (n : ℚ))] } := by
  simp only [runEpisode, hr, ho]
  rw [episodeLoop_mapTr, hE]
  simp only [StepRes.mapTr]
  rw [hd]
  simp [List.append_assoc]

theorem runEpisode_ok_elim {Obs Act ES AS : Type} (env : Env Obs Act ES)
    (actor : Actor Obs Act AS) (times : ℕ → ℚ) (epFuel : ℕ)
    (st : LoopState Obs Act ES AS) (n : ℕ) (st' : LoopState Obs Act ES AS)
    (h : runEpisode env actor times epFuel st = EpisodeRes.ok n st') :
    ∃ es1 ts0 ac1 es2 ac2 ret inner sps,
      env.reset st.envState = Except.ok (es1, ts0) ∧
      actor.observe_first st.actorState ts0 = Except.ok ac1 ∧
      episodeLoop env actor epFuel es1 ac1 ts0 0 0 [] =
        StepRes.done es2 ac2 n ret inner ∧
      pyDiv (n : ℚ) (times (st.clockIdx + 1) - times st.clockIdx) = Except.ok sps ∧
      st'.envState = es2 ∧ st'.actorState = ac2 ∧
      st'.counter = counterIncrement st.counter 1 (n : ℚ) ∧
      st'.clockIdx = st.clockIdx + 2 ∧
      st'.trace = st.trace ++ [Event.reset ts0, Event.observe_first ts0] ++ inner ++
        [Event.counter_increment 1 (n : ℚ) (counterIncrement st.counter 1 (n : ℚ)),
         Event.logger_write (dictUpdate
           [("episode_length", (n : ℚ)), ("episode_return", ret),
            ("steps_per_second", sps)] (counterIncrement st.counter 1 (n : ℚ)))] ∧
      st'.logged = st.logged ++ [dictUpdate
        [("episode_length", (n : ℚ)), ("episode_return", ret),
         ("steps_per_second", sps)] (counterIncrement st.counter 1 (n : ℚ))] := by
  simp only [runEpisode] at h
  cases hr : env.reset st.envState with
  | error e => simp [hr] at h
  | ok p =>
    obtain ⟨es1, ts0⟩ := p
    simp only [hr] at h
    cases ho : actor.observe_first st.actorState ts0 with
    | error e => simp [ho] at h
    | ok ac1 =>
      simp only [ho] at h
      rw [episodeLoop_mapTr] at h
      cases hE : episodeLoop env actor epFuel es1 ac1 ts0 0 0 [] with
      | diverge => rw [hE] at h; simp [StepRes.mapTr] at h
      | err e tr => rw [hE] at h; simp [StepRes.mapTr] at h
      | done es2 ac2 steps ret inner =>
        rw [hE] at h
        simp only [StepRes.mapTr] at h
        cases hd : pyDiv (steps : ℚ) (times (st.clockIdx + 1) - times st.clockIdx) with
        | error e => simp [hd] at h
        | ok sps =>
          simp only [hd, EpisodeRes.ok.injEq] at h
          obtain ⟨hn, hst⟩ := h
          subst hn
          refine ⟨es1, ts0, ac1, es2, ac2, ret, inner, sps, ?_, ho, hE, hd,
            ?_, ?_, ?_, ?_, ?_, ?_⟩
          · rfl
          all_goals rw [← hst] <;> simp [List.append_assoc]

/-- A failed episode logs nothing: on any error result the records the logger
has received are exactly the ones it had before the episode started. -/
theorem runEpisode_err_logged {Obs Act ES AS : Type} (env : Env Obs Act ES)
    (actor : Actor Obs Act AS) (times : ℕ → ℚ) (epFuel : ℕ)
    (st : LoopState Obs Act ES AS) (e : RunErr) (tr : List (Event Obs Act))
    (cnt : List (String × ℚ)) (lg : List (List (String × ℚ)))
    (h : runEpisode env actor times epFuel st = EpisodeRes.err e tr cnt lg) :
    lg = st.logged := by
  simp only [runEpisode] at h
  cases hr : env.reset st.envState with
  | error e0 =>
    simp only [hr, EpisodeRes.err.injEq] at h
    exact h.2.2.2.symm
  | ok p =>
    obtain ⟨es1, ts0⟩ := p
    simp only [hr] at h
    cases ho : actor.observe_first st.actorState ts0 with
    | error e0 =>
      simp only [ho, EpisodeRes.err.injEq] at h
      exact h.2.2.2.symm
    | ok ac1 =>
      simp only [ho] at h
      rw [episodeLoop_mapTr] at h
      cases hE : episodeLoop env actor epFuel es1 ac1 ts0 0 0 [] with
      | diverge => rw [hE] at h; simp [StepRes.mapTr] at h
      | err e0 tr0 =>
        rw [hE] at h
        simp only [StepRes.mapTr, EpisodeRes.err.injEq] at h
        exact h.2.2.2.symm
      | done es2 ac2 steps ret inner =>
        rw [hE] at h
        simp only [StepRes.mapTr] at h
        cases hd : pyDiv (steps : ℚ) (times (st.clockIdx + 1) - times st.clockIdx) with
        | error e0 =>
          simp only [hd, EpisodeRes.err.injEq] at h
          exact h.2.2.2.symm
        | ok sps => simp [hd] at h

/-- A `runLoop` error result always comes from one failed episode attempt, and
that attempt added nothing to the logger. -/
theorem runLoop_err_from_episode {Obs Act ES AS : Type} (env : Env Obs Act ES)
    (actor : Actor Obs Act AS) (times : ℕ → ℚ) (num_episodes num_steps : Option ℕ)
    (epFuel : ℕ) :
    ∀ (oFuel ec sc : ℕ) (st : LoopState Obs Act ES AS) (e : RunErr)
      (tr : List (Event Obs Act)) (cnt : List (String × ℚ))
      (lg : List (List (String × ℚ))),
    runLoop env actor times num_episodes num_steps epFuel oFuel ec sc st =
      RunOutcome.err e tr cnt lg →
    ∃ stMid, runEpisode env actor times epFuel stMid = EpisodeRes.err e tr cnt lg ∧
      lg = stMid.logged := by
  intro oFuel
  induction oFuel with
  | zero =>
    intro ec sc st e tr cnt lg h
    by_cases ht : should_terminate num_episodes num_steps ec sc <;>
      simp [runLoop, ht] at h
  | succ o ih =>
    intro ec sc st e tr cnt lg h
    by_cases ht : should_terminate num_episodes num_steps ec sc
    · simp [runLoop, ht] at h
    · simp only [runLoop, ht, if_false] at h
      cases hep : runEpisode env actor times epFuel st with
      | diverge => simp [hep] at h
      | ok steps st1 =>
        simp only [hep] at h
        exact ih (ec + 1) (sc + steps) st1 e tr cnt lg h
      | err e0 tr0 cnt0 lg0 =>
        simp only [hep] at h
        obtain ⟨h1, h2, h3, h4⟩ := RunOutcome.err.inj h
        subst h1; subst h2; subst h3; subst h4
        exact ⟨st, hep, runEpisode_err_logged env actor times epFuel st _ _ _ _ hep⟩

/-! Termination of the outer loop under an episode bound or a step bound. -/

theorem runLoop_episodes_bound {Obs Act ES AS : Type} (env : Env Obs Act ES)
    (actor : Actor Obs Act AS) (times : ℕ → ℚ) (epFuel : ℕ) (a : ℕ)
    (hep : ∀ s : LoopState Obs Act ES AS, ∃ n s',
      runEpisode env actor times epFuel s = EpisodeRes.ok n s') :
    ∀ (oFuel ec sc : ℕ) (st : LoopState Obs Act ES AS), a ≤ ec + oFuel →
    ∃ ec' sc' st', runLoop env actor times (some a) none epFuel oFuel ec sc st =
      RunOutcome.ok ec' sc' st' ∧ a ≤ ec' := by
  intro oFuel
  induction oFuel with
  | zero =>
    intro ec sc st hle
    have ha : a ≤ ec := by omega
    refine ⟨ec, sc, st, ?_, ha⟩
    simp [runLoop, should_terminate, ha]
  | succ o ih =>
    intro ec sc st hle
    by_cases ha : a ≤ ec
    · refine ⟨ec, sc, st, ?_, ha⟩
      simp [runLoop, should_terminate, ha]
    · obtain ⟨n, s', hs⟩ := hep st
      obtain ⟨ec', sc', st', hrec, hge⟩ := ih (ec + 1) (sc + n) s' (by omega)
      refine ⟨ec', sc', st', ?_, hge⟩
      simp [runLoop, should_terminate, ha, hs, hrec]

theorem runLoop_steps_bound {Obs Act ES AS : Type} (env : Env Obs Act ES)
    (actor : Actor Obs Act AS) (times : ℕ → ℚ) (epFuel : ℕ) (b B : ℕ)
    (hep : ∀ s : LoopState Obs Act ES AS, ∃ n s',
      runEpisode env actor times epFuel s = EpisodeRes.ok n s' ∧ 1 ≤ n ∧ n ≤ B) :
    ∀ (oFuel ec sc : ℕ) (st : LoopState Obs Act ES AS),
    (b ≤ sc ∨ b ≤ sc + oFuel) → sc < b + B →
    ∃ ec' sc' st', runLoop env actor times none (some b) epFuel oFuel ec sc st =
      RunOutcome.ok ec' sc' st' ∧ b ≤ sc' ∧ sc' < b + B := by
  intro oFuel
  induction oFuel with
  | zero =>
    intro ec sc st hle hlt
    have hb : b ≤ sc := by omega
    refine ⟨ec, sc, st, ?_, hb, hlt⟩
    simp [runLoop, should_terminate, hb]
  | succ o ih =>
    intro ec sc st hle hlt
    by_cases hb : b ≤ sc
    · refine ⟨ec, sc, st, ?_, hb, hlt⟩
      simp [runLoop, should_terminate, hb]
    · obtain ⟨n, s', hs, hn1, hnB⟩ := hep st
      obtain ⟨ec', sc', st', hrec, hge, hlt'⟩ :=
        ih (ec + 1) (sc + n) s' (by omega) (by omega)
      refine ⟨ec', sc', st', ?_, hge, hlt'⟩
      simp [runLoop, should_terminate, hb, hs, hrec]

/-! Concrete runs of the loop against `envOneStep` and `actorConst`. -/

theorem runEpisode_envOneStep_eq (s : LoopState ℤ ℤ Unit Unit) :
    runEpisode envOneStep actorConst timesId 5 s = EpisodeRes.ok 1
      { envState := (), actorState := (),
        counter := counterIncrement s.counter 1 ((1 : ℕ) : ℚ),
        clockIdx := s.clockIdx + 2,
        trace := s.trace ++ [Event.reset tsFirst, Event.observe_first tsFirst] ++
          [Event.select_action 0 0, Event.env_step 0 tsLastOne,
           Event.observe 0 tsLastOne, Event.update] ++
          [Event.counter_increment 1 ((1 : ℕ) : ℚ)
             (counterIncrement s.counter 1 ((1 : ℕ) : ℚ)),
           Event.logger_write (dictUpdate
             [("episode_length", ((1 : ℕ) : ℚ)), ("episode_return", 0 + 1),
              ("steps_per_second", ((1 : ℕ) : ℚ) / 1)]
             (counterIncrement s.counter 1 ((1 : ℕ) : ℚ)))],
        logged := s.logged ++ [dictUpdate
          [("episode_length", ((1 : ℕ) : ℚ)), ("episode_return", 0 + 1),
           ("steps_per_second", ((1 : ℕ) : ℚ) / 1)]
          (counterIncrement s.counter 1 ((1 : ℕ) : ℚ))] } := by
  have hel : timesId (s.clockIdx + 1) - timesId s.clockIdx = 1 := by
    simp [timesId]
  have hE : episodeLoop envOneStep actorConst 5 () () tsFirst 0 0
      ([] : List (Event ℤ ℤ)) = StepRes.done () () 1 (0 + 1)
        [Event.select_action 0 0, Event.env_step 0 tsLastOne,
         Event.observe 0 tsLastOne, Event.update] := rfl
  have hd : pyDiv ((1 : ℕ) : ℚ) (timesId (s.clockIdx + 1) - timesId s.clockIdx) =
      Except.ok (((1 : ℕ) : ℚ) / 1) := by
    rw [hel]
    simp [pyDiv]
  exact runEpisode_ok_intro envOneStep actorConst timesId 5 s () tsFirst ()
    () () 1 (0 + 1) _ (((1 : ℕ) : ℚ) / 1) rfl rfl hE hd

theorem runEpisode_envOneStep (s : LoopState ℤ ℤ Unit Unit) :
    ∃ s', runEpisode envOneStep actorConst timesId 5 s = EpisodeRes.ok 1 s' :=
  ⟨_, runEpisode_envOneStep_eq s⟩

theorem runLoop_unbounded_diverges :
    ∀ (oFuel ec sc : ℕ) (s : LoopState ℤ ℤ Unit Unit),
    runLoop envOneStep actorConst timesId none none 5 oFuel ec sc s =
      RunOutcome.diverge := by
  intro oFuel
  induction oFuel with
  | zero =>
    intro ec sc s
    simp [runLoop, should_terminate]
  | succ o ih =>
    intro ec sc s
    obtain ⟨s', hs⟩ := runEpisode_envOneStep s
    simp [runLoop, should_terminate, hs, ih]

/-! Claim theorems. -/

/-- C1 (amended): for every call of `run` in which exactly one of
`num_episodes`/`num_steps` is non-null and every episode completes
successfully, taking at least one and at most `B` steps (per the Environment
contract `reset` yields a non-LAST timestep, so an episode takes at least one
step), `run` terminates: some fuel budget yields a normal return.  On return
the completed-episode count is `≥ num_episodes` when that bound was given,
and the completed-step count is `≥ num_steps` when that bound was given,
exceeding `num_steps` by less than the bound `B` on an episode's length
(termination is re-evaluated only before each new episode).  The original
claim's "at most one non-null" also admits the both-null call, which never
terminates — see the counterexample. -/
theorem run_bounded_terminates {Obs Act ES AS : Type} (env : Env Obs Act ES)
    (actor : Actor Obs Act AS) (times : ℕ → ℚ) (epFuel B : ℕ)
    (num_episodes num_steps : Option ℕ)
    (hep : ∀ s : LoopState Obs Act ES AS, ∃ n s',
      runEpisode env actor times epFuel s = EpisodeRes.ok n s' ∧ 1 ≤ n ∧ n ≤ B)
    (hone : num_episodes.isSome ≠ num_steps.isSome)
    (st : LoopState Obs Act ES AS) :
    ∃ oFuel episode_count step_count st',
      run env actor times num_episodes num_steps epFuel oFuel st =
        RunOutcome.ok episode_count step_count st' ∧
      (∀ a, num_episodes = some a → a ≤ episode_count) ∧
      (∀ b, num_steps = some b → b ≤ step_count ∧ step_count < b + B) := by
  cases num_episodes with
  | some a =>
    cases num_steps with
    | some b => simp at hone
    | none =>
      have hep' : ∀ s : LoopState Obs Act ES AS, ∃ n s',
          runEpisode env actor times epFuel s = EpisodeRes.ok n s' := by
        intro s
        obtain ⟨n, s', hs, -, -⟩ := hep s
        exact ⟨n, s', hs⟩
      obtain ⟨ec', sc', st', hrun, hge⟩ :=
        runLoop_episodes_bound env actor times epFuel a hep' a 0 0 st (by omega)
      refine ⟨a, ec', sc', st', ?_, ?_, ?_⟩
      · simpa [run] using hrun
      · intro a2 ha2
        obtain rfl : a2 = a := (Option.some.inj ha2).symm
        exact hge
      · intro b hb
        exact absurd hb (by simp)
  | none =>
    cases num_steps with
    | none => simp at hone
    | some b =>
      have hB1 : 1 ≤ B := by
        obtain ⟨n, s', -, h1, h2⟩ := hep st
        omega
      obtain ⟨ec', sc', st', hrun, hge, hlt⟩ :=
        runLoop_steps_bound env actor times epFuel b B hep b 0 0 st
          (by omega) (by omega)
      refine ⟨b, ec', sc', st', ?_, ?_, ?_⟩
      · simpa [run] using hrun
      · intro a ha
        exact absurd ha (by simp)
      · intro b2 hb2
        obtain rfl : b2 = b := (Option.some.inj hb2).symm
        exact ⟨hge, hlt⟩

/-- Witness for C1: a two-episode bounded run against the one-step
environment terminates with at least two completed episodes. -/
theorem run_bounded_terminates_witness :
    ∃ oFuel episode_count step_count st',
      run envOneStep actorConst timesId (some 2) none 5 oFuel st0 =
        RunOutcome.ok episode_count step_count st' ∧
      (∀ a, (some 2 : Option ℕ) = some a → a ≤ episode_count) ∧
      (∀ b, (none : Option ℕ) = some b → b ≤ step_count ∧ step_count < b + 1) := by
  refine run_bounded_terminates envOneStep actorConst timesId 5 1 (some 2) none
    ?_ (by decide) st0
  intro s
  obtain ⟨s', hs⟩ := runEpisode_envOneStep s
  exact ⟨1, s', hs, le_refl 1, le_refl 1⟩

/-- C1 counterexample: the claim as stated also covers the call with both
bounds null ("at most one non-null"), and there — even with an environment
whose every episode is finite (exactly one step) and collaborators that never
fail — `run` never terminates: no fuel budget produces a normal return. -/
theorem run_unbounded_never_terminates :
    ¬ RunTerminates envOneStep actorConst timesId none none 5 st0 := by
  rintro ⟨oFuel, ec, sc, st', h⟩
  simp [run, runLoop_unbounded_diverges] at h

/-- C2: calling `run` with both `num_episodes` and `num_steps` non-null fails
with InvalidArgument before any interaction occurs: the error result carries
the initial event trace (no Environment/Actor/Counter/Logger call was made),
the initial counter state and the initial logged records, all unchanged. -/
theorem run_both_bounds_invalid_argument {Obs Act ES AS : Type}
    (env : Env Obs Act ES) (actor : Actor Obs Act AS) (times : ℕ → ℚ)
    (a b : ℕ) (epFuel oFuel : ℕ) (st : LoopState Obs Act ES AS) :
    run env actor times (some a) (some b) epFuel oFuel st =
      RunOutcome.err RunErr.invalidArgument st.trace st.counter st.logged := by
  simp [run]

/-- C3: for every episode completed by the loop the operation order is:
`Environment.reset` producing the first timestep, then `Actor.observe_first`
with that timestep, then — while the current timestep is not LAST — exactly
the block `Actor.select_action(observation)`, `Environment.step(action)`,
`Actor.observe(action, next timestep)`, `Actor.update()` (captured by
`EpisodeBlocks`, which also ties each action to its `env_step` and `observe`
events and each observation to the current timestep); the logged
`episode_length` equals the number of `Environment.step` calls of the
episode and the logged `episode_return` equals the sum of the rewards of the
timesteps those calls returned.  The two `dictGet ... = none` hypotheses
restrict to counters whose totals do not collide with the computed keys (a
collision would overwrite them — see C7). -/
theorem episode_operation_order {Obs Act ES AS : Type} (env : Env Obs Act ES)
    (actor : Actor Obs Act AS) (times : ℕ → ℚ) (epFuel : ℕ)
    (st : LoopState Obs Act ES AS) (n : ℕ) (st' : LoopState Obs Act ES AS)
    (h : runEpisode env actor times epFuel st = EpisodeRes.ok n st')
    (hL : dictGet (counterIncrement st.counter 1 (n : ℚ)) "episode_length" = none)
    (hR : dictGet (counterIncrement st.counter 1 (n : ℚ)) "episode_return" = none) :
    ∃ ts0 inner r rec,
      st'.trace = st.trace ++ [Event.reset ts0, Event.observe_first ts0] ++ inner ++
        [Event.counter_increment 1 (n : ℚ) (counterIncrement st.counter 1 (n : ℚ)),
         Event.logger_write rec] ∧
      EpisodeBlocks ts0.observation inner n r ∧
      countEnvSteps inner = n ∧
      sumEnvRewards inner = r ∧
      st'.logged = st.logged ++ [rec] ∧
      dictGet rec "episode_length" = some (n : ℚ) ∧
      dictGet rec "episode_return" = some r := by
  obtain ⟨es1, ts0, ac1, es2, ac2, ret, inner, sps, hr0, ho0, hE, hd, f1, f2,
    f3, f4, f5, f6⟩ := runEpisode_ok_elim env actor times epFuel st n st' h
  obtain ⟨nx, rx, hn, hrr, hb⟩ :=
    episodeLoop_blocks env actor epFuel es1 ac1 ts0 0 0 es2 ac2 n ret inner hE
  have hnx : nx = n := by omega
  subst hnx
  have hrx : rx = ret := by rw [hrr]; ring
  subst hrx
  obtain ⟨hc1, hc2, -⟩ := EpisodeBlocks.counts hb
  refine ⟨ts0, inner, rx,
    dictUpdate [("episode_length", (nx : ℚ)), ("episode_return", rx),
      ("steps_per_second", sps)] (counterIncrement st.counter 1 (nx : ℚ)),
    f5, hb, hc1, hc2, f6, ?_, ?_⟩
  · rw [dictGet_dictUpdate_none _ _ _ hL]
    simp [dictGet]
  · rw [dictGet_dictUpdate_none _ _ _ hR]
    norm_num +decide [dictGet]

/-- Witness for C3: the one-step environment executes one block per episode
and logs `episode_length` 1 and `episode_return` 1. -/
theorem episode_operation_order_witness :
    ∃ st', runEpisode envOneStep actorConst timesId 5 st0 = EpisodeRes.ok 1 st' ∧
      ∃ ts0 inner r rec,
        st'.trace = st0.trace ++ [Event.reset ts0, Event.observe_first ts0] ++
          inner ++
          [Event.counter_increment 1 ((1 : ℕ) : ℚ)
             (counterIncrement st0.counter 1 ((1 : ℕ) : ℚ)),
           Event.logger_write rec] ∧
        EpisodeBlocks ts0.observation inner 1 r ∧
        countEnvSteps inner = 1 ∧
        sumEnvRewards inner = r ∧
        st'.logged = st0.logged ++ [rec] ∧
        dictGet rec "episode_length" = some ((1 : ℕ) : ℚ) ∧
        dictGet rec "episode_return" = some r :=
  ⟨_, runEpisode_envOneStep_eq st0,
    episode_operation_order envOneStep actorConst timesId 5 st0 1 _
      (runEpisode_envOneStep_eq st0) (by decide) (by decide)⟩

/-- C4: every completed episode calls `Counter.increment` exactly once, with
deltas episodes = 1 and steps = the episode's step count, and the returned
totals are merged into the logged record; in the concrete scenario where the
environment returns LAST with reward 1 on the first step, a three-episode run
logs exactly three records with `episode_length` 1, `episode_return` 1 and
counter totals episodes 1,2,3 and steps 1,2,3 in order. -/
theorem counter_increment_per_episode :
    (∀ (Obs Act ES AS : Type) (env : Env Obs Act ES) (actor : Actor Obs Act AS)
       (times : ℕ → ℚ) (epFuel : ℕ) (st : LoopState Obs Act ES AS) (n : ℕ)
       (st' : LoopState Obs Act ES AS),
       runEpisode env actor times epFuel st = EpisodeRes.ok n st' →
       st'.counter = counterIncrement st.counter 1 (n : ℚ) ∧
       incrCalls st'.trace = incrCalls st.trace ++
         [(1, (n : ℚ), counterIncrement st.counter 1 (n : ℚ))] ∧
       ∃ ret sps, st'.logged = st.logged ++ [dictUpdate
         [("episode_length", (n : ℚ)), ("episode_return", ret),
          ("steps_per_second", sps)] (counterIncrement st.counter 1 (n : ℚ))]) ∧
    (runLogged (run envOneStep actorConst timesId (some 3) none 5 10 st0)).length
      = 3 ∧
    (runLogged (run envOneStep actorConst timesId (some 3) none 5 10 st0)).map
      (fun r => dictGet r "episode_length") = [some 1, some 1, some 1] ∧
    (runLogged (run envOneStep actorConst timesId (some 3) none 5 10 st0)).map
      (fun r => dictGet r "episode_return") = [some 1, some 1, some 1] ∧
    (runLogged (run envOneStep actorConst timesId (some 3) none 5 10 st0)).map
      (fun r => dictGet r "episodes") = [some 1, some 2, some 3] ∧
    (runLogged (run envOneStep actorConst timesId (some 3) none 5 10 st0)).map
      (fun r => dictGet r "steps") = [some 1, some 2, some 3] := by
  refine ⟨?_, ?_, ?_, ?_, ?_, ?_⟩
  · intro Obs Act ES AS env actor times epFuel st n st' h
    obtain ⟨es1, ts0, ac1, es2, ac2, ret, inner, sps, hr0, ho0, hE, hd, f1, f2,
      f3, f4, f5, f6⟩ := runEpisode_ok_elim env actor times epFuel st n st' h
    obtain ⟨nx, rx, hn, hrr, hb⟩ :=
      episodeLoop_blocks env actor epFuel es1 ac1 ts0 0 0 es2 ac2 n ret inner hE
    have hincr : incrCalls inner = [] := (EpisodeBlocks.counts hb).2.2
    refine ⟨f3, ?_, ret, sps, f6⟩
    rw [f5]
    simp only [incrCalls] at hincr ⊢
    simp [List.filterMap_append, hincr]
  all_goals
    norm_num +decide [run, runLoop, should_terminate, runEpisode_envOneStep_eq,
      runLogged, st0, counterIncrement, getCount, dictGet, dictSet, dictUpdate]

/-- Witness for C4's per-episode conjunct at a concrete one-step episode. -/
theorem counter_increment_per_episode_witness :
    ∃ st', runEpisode envOneStep actorConst timesId 5 st0 = EpisodeRes.ok 1 st' ∧
      (st'.counter = counterIncrement st0.counter 1 ((1 : ℕ) : ℚ) ∧
       incrCalls st'.trace = incrCalls st0.trace ++
         [(1, ((1 : ℕ) : ℚ), counterIncrement st0.counter 1 ((1 : ℕ) : ℚ))] ∧
       ∃ ret sps, st'.logged = st0.logged ++ [dictUpdate
         [("episode_length", ((1 : ℕ) : ℚ)), ("episode_return", ret),
          ("steps_per_second", sps)]
         (counterIncrement st0.counter 1 ((1 : ℕ) : ℚ))]) :=
  ⟨_, runEpisode_envOneStep_eq st0,
    counter_increment_per_episode.1 ℤ ℤ Unit Unit envOneStep actorConst timesId 5
      st0 1 _ (runEpisode_envOneStep_eq st0)⟩

/-- C5 (amended): `steps_per_second` is computed as the raw Python division
`episode_steps / elapsed` with no guard: when the elapsed wall-clock time is
positive the computation does not raise and the value `n / elapsed` is
non-negative (and finite, as a rational); but when the elapsed time is zero —
possible with a coarse clock — the division raises ZeroDivisionError, and a
negative elapsed time yields a non-positive value, contrary to the original
claim. -/
theorem steps_per_second_guard (n : ℕ) (elapsed : ℚ) (h : 0 < elapsed) :
    pyDiv (n : ℚ) elapsed = Except.ok ((n : ℚ) / elapsed) ∧
    0 ≤ (n : ℚ) / elapsed ∧
    pyDiv (n : ℚ) 0 = Except.error RunErr.zeroDivision ∧
    (∀ e : ℚ, e < 0 → (n : ℚ) / e ≤ 0) := by
  refine ⟨?_, ?_, ?_, ?_⟩
  · simp [pyDiv, ne_of_gt h]
  · exact div_nonneg (Nat.cast_nonneg n) (le_of_lt h)
  · simp [pyDiv]
  · intro e he
    exact div_nonpos_of_nonneg_of_nonpos (Nat.cast_nonneg n) (le_of_lt he)

/-- Witness for C5's amended claim at steps = 2, elapsed = 1. -/
theorem steps_per_second_guard_witness :
    pyDiv ((2 : ℕ) : ℚ) 1 = Except.ok (((2 : ℕ) : ℚ) / 1) ∧
    0 ≤ ((2 : ℕ) : ℚ) / 1 ∧
    pyDiv ((2 : ℕ) : ℚ) 0 = Except.error RunErr.zeroDivision ∧
    (∀ e : ℚ, e < 0 → ((2 : ℕ) : ℚ) / e ≤ 0) :=
  steps_per_second_guard 2 1 (by norm_num)

/-- C5 counterexample: with a clock whose two readings for the episode are
equal (zero elapsed time), computing `steps_per_second` raises
ZeroDivisionError — the episode aborts after the counter increment and
nothing is logged — refuting the claim that the computation never raises. -/
theorem steps_per_second_zero_elapsed_raises :
    runEpisode envOneStep actorConst (fun _ => (0 : ℚ)) 5 st0 =
      EpisodeRes.err RunErr.zeroDivision
        [Event.reset tsFirst, Event.observe_first tsFirst,
         Event.select_action 0 0, Event.env_step 0 tsLastOne,
         Event.observe 0 tsLastOne, Event.update,
         Event.counter_increment 1 1 [("episodes", 1), ("steps", 1)]]
        [("episodes", 1), ("steps", 1)] [] := by
  norm_num +decide [runEpisode, envOneStep, actorConst, episodeLoop, addReward,
    pyDiv, tsFirst, tsLastOne, st0, counterIncrement, getCount, dictGet, dictSet]

/-- C6 (amended): the reward-accumulation step `episode_return += reward`
fail-fasts on an absent reward: adding `None` raises TypeError (aborting the
episode), while a numeric reward is summed; a `None` reward is not treated
as zero. -/
theorem addReward_none_fail_fast (ret : ℚ) :
    addReward ret none = Except.error RunErr.typeError ∧
    ∀ w : ℚ, addReward ret (some w) = Except.ok (ret + w) :=
  ⟨rfl, fun _ => rfl⟩

/-- C6 counterexample: an environment whose `step` returns a MID timestep
with reward `None` makes the inner loop raise TypeError at the
reward-accumulation step (after `observe` and `update`), refuting the claim
that such a reward is treated as zero with no error. -/
theorem none_reward_raises_type_error :
    runEpisode envNoneReward actorConst timesId 5 st0 =
      EpisodeRes.err RunErr.typeError
        [Event.reset tsFirst, Event.observe_first tsFirst,
         Event.select_action 0 0, Event.env_step 0 tsMidNone,
         Event.observe 0 tsMidNone, Event.update] [] [] := by
  norm_num +decide [runEpisode, envNoneReward, actorConst, episodeLoop,
    addReward, pyDiv, tsFirst, tsMidNone, st0, timesId]

/-- C7: if the totals mapping returned by `Counter.increment` contains a key
equal to one of the computed fields `episode_length`, `episode_return` or
`steps_per_second` (totals keys assumed distinct, as in a Python dict), the
Counter's value for that key overwrites the computed value in the record
handed to `Logger.write`. -/
theorem counter_key_overwrites_computed {Obs Act ES AS : Type}
    (env : Env Obs Act ES) (actor : Actor Obs Act AS) (times : ℕ → ℚ)
    (epFuel : ℕ) (st : LoopState Obs Act ES AS) (n : ℕ)
    (st' : LoopState Obs Act ES AS) (k : String) (v : ℚ)
    (h : runEpisode env actor times epFuel st = EpisodeRes.ok n st')
    (hnd : ((counterIncrement st.counter 1 (n : ℚ)).map Prod.fst).Nodup)
    (hk : k = "episode_length" ∨ k = "episode_return" ∨ k = "steps_per_second")
    (hv : dictGet (counterIncrement st.counter 1 (n : ℚ)) k = some v) :
    ∃ rec, st'.logged = st.logged ++ [rec] ∧ dictGet rec k = some v := by
  obtain ⟨es1, ts0, ac1, es2, ac2, ret, inner, sps, hr0, ho0, hE, hd, f1, f2,
    f3, f4, f5, f6⟩ := runEpisode_ok_elim env actor times epFuel st n st' h
  exact ⟨_, f6, dictGet_dictUpdate_some _ _ _ _ hnd hv⟩

/-- Witness for C7: a shared counter already holding `episode_length = 99`
makes the logged record report `episode_length` 99 instead of the computed
value 1. -/
theorem counter_key_overwrites_computed_witness :
    ∃ st', runEpisode envOneStep actorConst timesId 5 stCollide =
        EpisodeRes.ok 1 st' ∧
      ∃ rec, st'.logged = stCollide.logged ++ [rec] ∧
        dictGet rec "episode_length" = some 99 :=
  ⟨_, runEpisode_envOneStep_eq stCollide,
    counter_key_overwrites_computed envOneStep actorConst timesId 5 stCollide 1 _
      "episode_length" 99 (runEpisode_envOneStep_eq stCollide) (by decide)
      (Or.inl rfl) (by decide)⟩

/-- C8 (amended): a collaborator failure propagates verbatim and aborts the
run: a failed episode adds nothing to the logger (first conjunct), and any
erroring run ends at the failing episode attempt, returning that attempt's
unchanged logger state, so no later episode is logged either (second
conjunct); in the scenario where `Actor.select_action` raises on its second
call and that call occurs during the first episode (episodes take two
steps), run(num_episodes = 2) propagates the failure with zero records
logged.  The original claim's scenario without the "during the first
episode" qualification is refuted by the counterexample, where one-step
episodes put the second call in the second episode after one record was
already logged. -/
theorem failure_aborts_without_logging :
    (∀ (Obs Act ES AS : Type) (env : Env Obs Act ES) (actor : Actor Obs Act AS)
       (times : ℕ → ℚ) (epFuel : ℕ) (st : LoopState Obs Act ES AS) (e : RunErr)
       (tr : List (Event Obs Act)) (cnt : List (String × ℚ))
       (lg : List (List (String × ℚ))),
       runEpisode env actor times epFuel st = EpisodeRes.err e tr cnt lg →
       lg = st.logged) ∧
    (∀ (Obs Act ES AS : Type) (env : Env Obs Act ES) (actor : Actor Obs Act AS)
       (times : ℕ → ℚ) (num_episodes num_steps : Option ℕ)
       (epFuel oFuel ec sc : ℕ) (st : LoopState Obs Act ES AS) (e : RunErr)
       (tr : List (Event Obs Act)) (cnt : List (String × ℚ))
       (lg : List (List (String × ℚ))),
       runLoop env actor times num_episodes num_steps epFuel oFuel ec sc st =
         RunOutcome.err e tr cnt lg →
       ∃ stMid, runEpisode env actor times epFuel stMid =
           EpisodeRes.err e tr cnt lg ∧ lg = stMid.logged) ∧
    run envTwoStep failActor timesId (some 2) none 9 9 st0Two =
      RunOutcome.err (RunErr.collaborator "fail")
        [Event.reset tsFirst, Event.observe_first tsFirst,
         Event.select_action 0 0, Event.env_step 0 tsMidTwo,
         Event.observe 0 tsMidTwo, Event.update] [] [] := by
  refine ⟨?_, ?_, ?_⟩
  · intro Obs Act ES AS env actor times epFuel st e tr cnt lg h
    exact runEpisode_err_logged env actor times epFuel st e tr cnt lg h
  · intro Obs Act ES AS env actor times nE nS epFuel oFuel ec sc st e tr cnt lg h
    exact runLoop_err_from_episode env actor times nE nS epFuel oFuel ec sc st
      e tr cnt lg h
  · norm_num +decide [run, runLoop, should_terminate, runEpisode, envTwoStep,
      failActor, episodeLoop, addReward, pyDiv, tsFirst, tsMidTwo, tsLastOne,
      st0Two, timesId]

/-- Witness for C8: the failing two-step episode, to which the first conjunct
applies — its error result carries the loop state's unchanged (empty) logger
history. -/
theorem failure_aborts_without_logging_witness :
    ∃ e tr cnt lg,
      runEpisode envTwoStep failActor timesId 9 st0Two =
        EpisodeRes.err e tr cnt lg ∧ lg = st0Two.logged := by
  have hrun : runEpisode envTwoStep failActor timesId 9 st0Two =
      EpisodeRes.err (RunErr.collaborator "fail")
        [Event.reset tsFirst, Event.observe_first tsFirst,
         Event.select_action 0 0, Event.env_step 0 tsMidTwo,
         Event.observe 0 tsMidTwo, Event.update] [] [] := by
    norm_num +decide [runEpisode, envTwoStep, failActor, episodeLoop, addReward,
      pyDiv, tsFirst, tsMidTwo, tsLastOne, st0Two, timesId]
  exact ⟨_, _, _, _, hrun, failure_aborts_without_logging.1 ℤ ℤ Bool ℕ
    envTwoStep failActor timesId 9 st0Two _ _ _ _ hrun⟩

/-- C8 counterexample: with one-step episodes, `select_action`'s second call
happens at the start of the second episode, so when it raises during
run(num_episodes = 2) the Logger has already received one record — not zero
as the claim's scenario states. -/
theorem second_call_failure_after_logged_episode :
    run envOneStep failActor timesId (some 2) none 9 9 st0Fail =
      RunOutcome.err (RunErr.collaborator "fail")
        [Event.reset tsFirst, Event.observe_first tsFirst,
         Event.select_action 0 0, Event.env_step 0 tsLastOne,
         Event.observe 0 tsLastOne, Event.update,
         Event.counter_increment 1 1 [("episodes", 1), ("steps", 1)],
         Event.logger_write [("episode_length", 1), ("episode_return", 1),
           ("steps_per_second", 1), ("episodes", 1), ("steps", 1)],
         Event.reset tsFirst, Event.observe_first tsFirst]
        [("episodes", 1), ("steps", 1)]
        [[("episode_length", 1), ("episode_return", 1), ("steps_per_second", 1),
          ("episodes", 1), ("steps", 1)]] ∧
    (runLogged (run envOneStep failActor timesId (some 2) none 9 9
      st0Fail)).length = 1 := by
  constructor <;>
    norm_num +decide [run, runLoop, should_terminate, runEpisode, envOneStep,
      failActor, episodeLoop, addReward, pyDiv, tsFirst, tsLastOne, st0Fail,
      timesId, counterIncrement, getCount, dictGet, dictSet, dictUpdate,
      runLogged]

/-- C9: with a deterministic Environment and Actor, two independent
one-episode runs — started from the same environment and actor internals but
possibly different shared counters, wall-clock readings and logger histories
— produce records with identical `episode_length` and identical
`episode_return` (given non-colliding counter keys, see C7), and each
completed episode increases the Counter totals by exactly
(episodes = 1, steps = episode_length). -/
theorem deterministic_replay {Obs Act ES AS : Type} (env : Env Obs Act ES)
    (actor : Actor Obs Act AS) (times1 times2 : ℕ → ℚ) (epFuel : ℕ)
    (st1 st2 : LoopState Obs Act ES AS) (n1 n2 : ℕ)
    (st1' st2' : LoopState Obs Act ES AS)
    (hes : st1.envState = st2.envState) (hac : st1.actorState = st2.actorState)
    (h1 : runEpisode env actor times1 epFuel st1 = EpisodeRes.ok n1 st1')
    (h2 : runEpisode env actor times2 epFuel st2 = EpisodeRes.ok n2 st2')
    (hL1 : dictGet (counterIncrement st1.counter 1 (n1 : ℚ)) "episode_length" = none)
    (hR1 : dictGet (counterIncrement st1.counter 1 (n1 : ℚ)) "episode_return" = none)
    (hL2 : dictGet (counterIncrement st2.counter 1 (n2 : ℚ)) "episode_length" = none)
    (hR2 : dictGet (counterIncrement st2.counter 1 (n2 : ℚ)) "episode_return" = none) :
    n1 = n2 ∧
    (∃ rec1 rec2, st1'.logged = st1.logged ++ [rec1] ∧
      st2'.logged = st2.logged ++ [rec2] ∧
      dictGet rec1 "episode_length" = dictGet rec2 "episode_length" ∧
      dictGet rec1 "episode_return" = dictGet rec2 "episode_return") ∧
    getCount st1'.counter "episodes" = getCount st1.counter "episodes" + 1 ∧
    getCount st1'.counter "steps" = getCount st1.counter "steps" + (n1 : ℚ) ∧
    getCount st2'.counter "episodes" = getCount st2.counter "episodes" + 1 ∧
    getCount st2'.counter "steps" = getCount st2.counter "steps" + (n2 : ℚ) := by
  obtain ⟨es1a, ts0a, ac1a, es2a, ac2a, reta, innera, spsa, hr1, ho1, hE1, hd1,
    g1, g2, g3, g4, g5, g6⟩ :=
    runEpisode_ok_elim env actor times1 epFuel st1 n1 st1' h1
  obtain ⟨es1b, ts0b, ac1b, es2b, ac2b, retb, innerb, spsb, hr2, ho2, hE2, hd2,
    k1, k2, k3, k4, k5, k6⟩ :=
    runEpisode_ok_elim env actor times2 epFuel st2 n2 st2' h2
  rw [hes] at hr1
  rw [hr2] at hr1
  injection hr1 with hp
  injection hp with he hts
  subst he
  subst hts
  rw [hac] at ho1
  rw [ho2] at ho1
  injection ho1 with hac1
  subst hac1
  rw [hE2] at hE1
  injection hE1 with q1 q2 q3 q4 q5
  subst q1
  subst q2
  subst q3
  subst q4
  subst q5
  refine ⟨rfl, ⟨_, _, g6, k6, ?_, ?_⟩, ?_, ?_, ?_, ?_⟩
  · rw [dictGet_dictUpdate_none _ _ _ hL1, dictGet_dictUpdate_none _ _ _ hL2]
    simp [dictGet]
  · rw [dictGet_dictUpdate_none _ _ _ hR1, dictGet_dictUpdate_none _ _ _ hR2]
    norm_num +decide [dictGet]
  · rw [g3, getCount_counterIncrement_episodes]
  · rw [g3, getCount_counterIncrement_steps]
  · rw [k3, getCount_counterIncrement_episodes]
  · rw [k3, getCount_counterIncrement_steps]

/-- Witness for C9: the same one-step environment replayed from two loop
states that share environment and actor internals but differ in counter,
clock and logger history. -/
theorem deterministic_replay_witness :
    ∃ st1' st2',
      runEpisode envOneStep actorConst timesId 5 st0 = EpisodeRes.ok 1 st1' ∧
      runEpisode envOneStep actorConst timesId 5 stAlt = EpisodeRes.ok 1 st2' ∧
      ((1 : ℕ) = 1 ∧
       (∃ rec1 rec2, st1'.logged = st0.logged ++ [rec1] ∧
         st2'.logged = stAlt.logged ++ [rec2] ∧
         dictGet rec1 "episode_length" = dictGet rec2 "episode_length" ∧
         dictGet rec1 "episode_return" = dictGet rec2 "episode_return") ∧
       getCount st1'.counter "episodes" = getCount st0.counter "episodes" + 1 ∧
       getCount st1'.counter "steps" = getCount st0.counter "steps" + ((1 : ℕ) : ℚ) ∧
       getCount st2'.counter "episodes" = getCount stAlt.counter "episodes" + 1 ∧
       getCount st2'.counter "steps" = getCount stAlt.counter "steps" + ((1 : ℕ) : ℚ)) :=
  ⟨_, _, runEpisode_envOneStep_eq st0, runEpisode_envOneStep_eq stAlt,
    deterministic_replay envOneStep actorConst timesId timesId 5 st0 stAlt 1 1 _ _
      rfl rfl (runEpisode_envOneStep_eq st0) (runEpisode_envOneStep_eq stAlt)
      (by decide) (by decide) (by decide) (by decide)⟩

/-- C10: if `Environment.reset` returns a timestep that is already LAST, the
episode completes with zero inner-loop iterations: `Actor.observe_first` is
still called but no `select_action`, `env_step`, `observe` or `update` event
occurs (the trace of the episode is exactly reset, observe-first,
counter-increment, logger-write); the episode is still counted —
`Counter.increment` is called with episodes = 1 and steps = 0 — and a record
with `episode_length` 0 and `episode_return` 0 is passed to `Logger.write`.
The clock hypothesis keeps the `steps_per_second` division from raising (see
C5); the two `dictGet ... = none` hypotheses rule out counter-key collisions
(see C7). -/
theorem zero_step_episode {Obs Act ES AS : Type} (env : Env Obs Act ES)
    (actor : Actor Obs Act AS) (times : ℕ → ℚ) (epFuel : ℕ)
    (st : LoopState Obs Act ES AS) (es1 : ES) (ts0 : TimeStep Obs) (ac1 : AS)
    (hr : env.reset st.envState = Except.ok (es1, ts0))
    (hlast : ts0.step_type = StepType.last)
    (ho : actor.observe_first st.actorState ts0 = Except.ok ac1)
    (hclock : times (st.clockIdx + 1) - times st.clockIdx ≠ 0)
    (hL : dictGet (counterIncrement st.counter 1 0) "episode_length" = none)
    (hR : dictGet (counterIncrement st.counter 1 0) "episode_return" = none) :
    runEpisode env actor times epFuel st = EpisodeRes.ok 0
      { envState := es1, actorState := ac1,
        counter := counterIncrement st.counter 1 0,
        clockIdx := st.clockIdx + 2,
        trace := st.trace ++ [Event.reset ts0, Event.observe_first ts0,
          Event.counter_increment 1 0 (counterIncrement st.counter 1 0),
          Event.logger_write (dictUpdate
            [("episode_length", 0), ("episode_return", 0), ("steps_per_second", 0)]
            (counterIncrement st.counter 1 0))],
        logged := st.logged ++ [dictUpdate
          [("episode_length", 0), ("episode_return", 0), ("steps_per_second", 0)]
          (counterIncrement st.counter 1 0)] } ∧
    dictGet (dictUpdate [("episode_length", 0), ("episode_return", 0),
        ("steps_per_second", 0)] (counterIncrement st.counter 1 0))
      "episode_length" = some 0 ∧
    dictGet (dictUpdate [("episode_length", 0), ("episode_return", 0),
        ("steps_per_second", 0)] (counterIncrement st.counter 1 0))
      "episode_return" = some 0 := by
  have hE : episodeLoop env actor epFuel es1 ac1 ts0 0 0 [] =
      StepRes.done es1 ac1 0 0 [] := by
    cases epFuel <;> simp [episodeLoop, hlast]
  have hd : pyDiv ((0 : ℕ) : ℚ) (times (st.clockIdx + 1) - times st.clockIdx) =
      Except.ok 0 := by
    simp [pyDiv, hclock]
  have h := runEpisode_ok_intro env actor times epFuel st es1 ts0 ac1 es1 ac1
    0 0 [] 0 hr ho hE hd
  simp only [Nat.cast_zero] at h
  refine ⟨?_, ?_, ?_⟩
  · rw [h]
    simp [List.append_assoc]
  · rw [dictGet_dictUpdate_none _ _ _ hL]
    simp [dictGet]
  · rw [dictGet_dictUpdate_none _ _ _ hR]
    norm_num +decide [dictGet]

/-- Witness for C10: an environment whose reset immediately returns a LAST
timestep still yields a counted, logged zero-length episode. -/
theorem zero_step_episode_witness :
    runEpisode envLastOnReset actorConst timesId 5 st0 = EpisodeRes.ok 0
      { envState := (), actorState := (),
        counter := counterIncrement st0.counter 1 0,
        clockIdx := st0.clockIdx + 2,
        trace := st0.trace ++ [Event.reset tsLastFromReset,
          Event.observe_first tsLastFromReset,
          Event.counter_increment 1 0 (counterIncrement st0.counter 1 0),
          Event.logger_write (dictUpdate
            [("episode_length", 0), ("episode_return", 0), ("steps_per_second", 0)]
            (counterIncrement st0.counter 1 0))],
        logged := st0.logged ++ [dictUpdate
          [("episode_length", 0), ("episode_return", 0), ("steps_per_second", 0)]
          (counterIncrement st0.counter 1 0)] } ∧
    dictGet (dictUpdate [("episode_length", 0), ("episode_return", 0),
        ("steps_per_second", 0)] (counterIncrement st0.counter 1 0))
      "episode_length" = some 0 ∧
    dictGet (dictUpdate [("episode_length", 0), ("episode_return", 0),
        ("steps_per_second", 0)] (counterIncrement st0.counter 1 0))
      "episode_return" = some 0 :=
  zero_step_episode envLastOnReset actorConst timesId 5 st0 () tsLastFromReset ()
    rfl rfl rfl (by norm_num [timesId]) (by decide) (by decide)

end Acme
